import Mathlib

/-!
Shallow embedding of the telemetry simulator of `hmi_prrofOfConcept`
(the `SimpleMqttPublisher` class, the MQTT frame codecs, and the metric
generator), with proofs of the specified properties.

Modelling conventions:
* byte sequences are `List Nat` whose elements are byte values; strings enter
  the codecs as their UTF-8 byte sequences (JS `Buffer.from(s, "utf8")`);
* JS `number` arithmetic in the metric generator is modelled over `ℚ`, and
  each call to `Math.random()` is made explicit as a parameter `r` with
  `0 ≤ r < 1`;
* the publisher's mutable fields (`socket`, `isReady`, `connectPromise`)
  become an explicit `PublisherState`, and each event handler becomes a
  function from state to state plus an observable outcome.
-/

namespace Hmi

/-- Embeds `encodeRemainingLength` (`simulator.ts`): the do/while loop emits
`length % 128` as the byte's low seven bits, with the top bit (`| 0x80`) set
when the updated quotient `length / 128` is still positive, and recurses on
the quotient; at least one byte is emitted even for zero. -/
def encodeRemainingLength (length : Nat) : List Nat :=
  if h : 0 < length / 128 then
    (length % 128 ||| 0x80) :: encodeRemainingLength (length / 128)
  else
    [length % 128]
termination_by length
decreasing_by
  have h0 : length ≠ 0 := by rintro rfl; simp at h
  exact Nat.div_lt_self (Nat.pos_of_ne_zero h0) (by norm_num)

/-- Modelled from the spec: §4.1 describes decoding only conceptually
("Decoding … reverses this"); no decoder exists in the repository.  Each byte
contributes its low seven bits, least-significant group first; a set top bit
means more bytes follow, and the encoding must end exactly at the terminating
byte. -/
def decodeRemainingLength : List Nat → Option Nat
  | [] => none
  | b :: rest =>
    if b < 128 then
      match rest with
      | [] => some b
      | _ :: _ => none
    else
      (decodeRemainingLength rest).map (fun v => b % 128 + 128 * v)

theorem lor_128_of_lt (a : Nat) (h : a < 128) : a ||| 0x80 = a + 128 := by
  revert h
  revert a
  decide

theorem encodeRemainingLength_ne_nil (L : Nat) : encodeRemainingLength L ≠ [] := by
  rw [encodeRemainingLength]
  split <;> simp

theorem decode_encodeRemainingLength (L : Nat) :
    decodeRemainingLength (encodeRemainingLength L) = some L := by
  induction L using Nat.strong_induction_on with
  | _ L ih =>
    rw [encodeRemainingLength]
    by_cases h : 0 < L / 128
    · rw [dif_pos h]
      have hlt : L % 128 < 128 := Nat.mod_lt _ (by norm_num)
      have hL0 : L ≠ 0 := by rintro rfl; simp at h
      have hrec : L / 128 < L :=
        Nat.div_lt_self (Nat.pos_of_ne_zero hL0) (by norm_num)
      rw [lor_128_of_lt _ hlt]
      simp only [decodeRemainingLength]
      have hge : ¬ (L % 128 + 128 < 128) := by omega
      rw [if_neg hge, ih _ hrec]
      simp only [Option.map_some']
      congr 1
      omega
    · rw [dif_neg h]
      simp only [decodeRemainingLength]
      have hlt : L % 128 < 128 := Nat.mod_lt _ (by norm_num)
      rw [if_pos hlt]
      have : L / 128 = 0 := by omega
      have : L % 128 = L := by omega
      simp [this]

theorem encodeRemainingLength_byte (L : Nat) :
    ∀ i, i < (encodeRemainingLength L).length →
      (encodeRemainingLength L).getD i 0 % 128 = L / 128 ^ i % 128 ∧
      (128 ≤ (encodeRemainingLength L).getD i 0 ↔
        i + 1 < (encodeRemainingLength L).length) := by
  induction L using Nat.strong_induction_on with
  | _ L ih =>
    intro i hi
    rw [encodeRemainingLength] at hi ⊢
    by_cases h : 0 < L / 128
    · rw [dif_pos h] at hi ⊢
      have hlt : L % 128 < 128 := Nat.mod_lt _ (by norm_num)
      have hL0 : L ≠ 0 := by rintro rfl; simp at h
      have hrec : L / 128 < L :=
        Nat.div_lt_self (Nat.pos_of_ne_zero hL0) (by norm_num)
      cases i with
      | zero =>
        constructor
        · rw [lor_128_of_lt _ hlt]
          simp [Nat.add_mod_right]
        · rw [lor_128_of_lt _ hlt]
          have hne := encodeRemainingLength_ne_nil (L / 128)
          have : 0 < (encodeRemainingLength (L / 128)).length :=
            List.length_pos.mpr hne
          simp only [List.getD_cons_zero, List.length_cons]
          constructor
          · intro _; omega
          · intro _; omega
      | succ j =>
        simp only [List.getD_cons_succ, List.length_cons] at hi ⊢
        have hj : j < (encodeRemainingLength (L / 128)).length := by omega
        obtain ⟨h1, h2⟩ := ih _ hrec j hj
        constructor
        · rw [h1, Nat.div_div_eq_div_mul]
          congr 2
          rw [pow_succ, mul_comm]
        · rw [h2]
          omega
    · rw [dif_neg h] at hi ⊢
      have : L / 128 = 0 := by omega
      have hi0 : i = 0 := by
        simp only [List.length_singleton] at hi
        omega
      subst hi0
      constructor
      · simp [this]
      · simp only [List.getD_cons_zero, List.length_singleton]
        have hlt : L % 128 < 128 := Nat.mod_lt _ (by norm_num)
        constructor
        · intro hc; omega
        · intro hc; omega

/-- Embeds `encodeUtf8String`: two length bytes `(len >> 8) & 0xff` and
`len & 0xff` followed by the UTF-8 bytes themselves.  The argument is the
UTF-8 byte sequence of the string (JS `Buffer.from(value, "utf8")`). -/
def encodeUtf8String (stringBuf : List Nat) : List Nat :=
  ((stringBuf.length >>> 8) &&& 0xff) :: (stringBuf.length &&& 0xff) :: stringBuf

/-- Follows the spec's words (§4.2), for comparison with `encodeUtf8String`:
two big-endian length bytes followed by the byte sequence, rejecting a
sequence that exceeds 65,535 bytes. -/
def encodeUtf8StringSpec (stringBuf : List Nat) : Option (List Nat) :=
  if stringBuf.length ≤ 65535 then
    some (stringBuf.length / 256 :: stringBuf.length % 256 :: stringBuf)
  else
    none

theorem and_ff_eq_mod (x : Nat) : x &&& 0xff = x % 256 := by
  have h := Nat.and_pow_two_sub_one_eq_mod x 8
  norm_num at h
  exact h

theorem shiftRight8_eq_div (x : Nat) : x >>> 8 = x / 256 := by
  have h := Nat.shiftRight_eq_div_pow x 8
  norm_num at h
  exact h

/-- Embeds the frame construction in `SimpleMqttPublisher.publish`: fixed
header `0x30 | retainFlag | qosFlag` where `retainFlag` is 1 when
`options.retain` is truthy and `qosFlag` is `qos << 1` when `options.qos` is
truthy (i.e. nonzero), then the remaining-length bytes for
`topicBuffer.length + payload.length`, then the topic field, then the raw
payload bytes. -/
def buildPublishPacket (topic payload : List Nat) (retain : Bool) (qos : Nat) :
    List Nat :=
  let retainFlag : Nat := if retain then 0x01 else 0x00
  let qosFlag : Nat := if qos ≠ 0 then qos <<< 1 else 0
  let fixedHeader : Nat := 0x30 ||| retainFlag ||| qosFlag
  let topicBuffer := encodeUtf8String topic
  let remainingLength := topicBuffer.length + payload.length
  (fixedHeader :: encodeRemainingLength remainingLength) ++ topicBuffer ++ payload

/-- State of a `SimpleMqttPublisher` instance: whether `this.socket` is
non-null, the `isReady` flag, the `connectPromise` field (`some p` holds the
handle of the pending/settled connect attempt), and a counter supplying fresh
promise handles. -/
structure PublisherState where
  hasSocket : Bool
  isReady : Bool
  connectPromise : Option Nat
  nextPromiseId : Nat
deriving DecidableEq

/-- Outcome of the `data` handler on the pending connect promise. -/
inductive HandshakeSignal where
  | resolved
  | rejected
  | noSignal
deriving DecidableEq

/-- Embeds `connect()`: when `this.connectPromise` is set, return it unchanged
and open no socket; otherwise create a fresh promise, open the socket, and
store the promise.  Returns (new state, promise handle returned to the caller,
whether a new socket was opened). -/
def connect (s : PublisherState) : PublisherState × Nat × Bool :=
  match s.connectPromise with
  | some p => (s, p, false)
  | none =>
    let p := s.nextPromiseId
    ({ hasSocket := true, isReady := s.isReady, connectPromise := some p,
       nextPromiseId := p + 1 }, p, true)

/-- Embeds the `data` handler installed by `connect()`: when not yet ready and
the chunk holds at least 4 bytes, accept (set `isReady`, resolve the pending
connect) exactly when `chunk[0] == 0x20 && chunk[1] >= 0x02 &&
chunk[3] == 0x00`, and reject the pending connect otherwise; any other chunk
is ignored. -/
def onData (s : PublisherState) (chunk : List Nat) :
    PublisherState × HandshakeSignal :=
  if s.isReady = false ∧ 4 ≤ chunk.length then
    if chunk.getD 0 0 = 0x20 ∧ 0x02 ≤ chunk.getD 1 0 ∧ chunk.getD 3 0 = 0x00 then
      ({ s with isReady := true }, HandshakeSignal.resolved)
    else
      (s, HandshakeSignal.rejected)
  else
    (s, HandshakeSignal.noSignal)

/-- Embeds the `close` handler installed by `connect()`:
`this.isReady = false; this.connectPromise = null`. -/
def onClose (s : PublisherState) : PublisherState :=
  { s with isReady := false, connectPromise := none }

/-- Embeds `publish(...)`: throws `"MQTT publisher not connected"` when
`this.socket` is null or `this.isReady` is false; otherwise writes exactly the
built publish packet to the socket. -/
def publish (s : PublisherState) (topic payload : List Nat) (retain : Bool)
    (qos : Nat) : Except String (List Nat) :=
  if s.hasSocket = false ∨ s.isReady = false then
    Except.error "MQTT publisher not connected"
  else
    Except.ok (buildPublishPacket topic payload retain qos)

/-- Socket writes performed by one publish call: none when it throws. -/
def writesOf : Except String (List Nat) → List (List Nat)
  | Except.ok packet => [packet]
  | Except.error _ => []

/-- Embeds `MetricDefinition` (`simulator.ts`).  The optional override
generator takes the tick's `Math.random()` draw and the current value and
returns the next raw value. -/
structure MetricDefinition where
  id : String
  label : String
  unit : String
  min : ℚ
  max : ℚ
  smoothing : ℚ
  frequency : ℚ
  precision : Option Nat
  generator : Option (ℚ → ℚ → ℚ)

/-- Embeds `MetricState`: current value and wandering target. -/
structure MetricState where
  value : ℚ
  target : ℚ
deriving DecidableEq

/-- Embeds `clamp(value, min, max) = Math.min(Math.max(value, min), max)`. -/
def clamp (value min max : ℚ) : ℚ :=
  Min.min (Max.max value min) max

/-- Embeds `randomInRange(min, max) = Math.random() * (max - min) + min`, with
the `Math.random()` draw `r` made explicit. -/
def randomInRange (r min max : ℚ) : ℚ :=
  r * (max - min) + min

/-- Embeds `defaultGenerator(metric)`: the returned closure reads the
metric's state target (`target` here, read before any mutation of the tick)
and one `Math.random()` draw `r`, and returns
`current + towards * smoothing + noise` with
`noise = (r - 0.5) * smoothing * (max - min) * 0.01`. -/
def defaultGenerator (metric : MetricDefinition) (target r current : ℚ) : ℚ :=
  let towards := target - current
  let noise := (r - 0.5) * metric.smoothing * (metric.max - metric.min) * 0.01
  current + towards * metric.smoothing + noise

/-- Embeds the state mutation of `publishMetric(metric)`: pick the override
generator if present (`metric.generator ?? defaultGenerator(metric)`), clamp
the raw next value into `[min, max]`, and resample the target from
`randomInRange(min, max)` when `|value - target| < smoothing * 5` after
clamping.  `rGen` is the generator's `Math.random()` draw and `rTarget` the
resampling draw. -/
def tick (metric : MetricDefinition) (rGen rTarget : ℚ) (s : MetricState) :
    MetricState :=
  let nextValue :=
    match metric.generator with
    | some g => g rGen s.value
    | none => defaultGenerator metric s.target rGen s.value
  let value := clamp nextValue metric.min metric.max
  let target :=
    if |value - s.target| < metric.smoothing * 5 then
      randomInRange rTarget metric.min metric.max
    else
      s.target
  ⟨value, target⟩

/-- Embeds the initial `MetricState` built for each metric at startup:
`{ value: metric.min, target: randomInRange(metric.min, metric.max) }`. -/
def initialState (metric : MetricDefinition) (u : ℚ) : MetricState :=
  ⟨metric.min, randomInRange u metric.min metric.max⟩

/-- `n` scheduled ticks for one metric, with per-tick random draws. -/
def runTicks (metric : MetricDefinition) (rGens rTargets : Nat → ℚ) :
    Nat → MetricState → MetricState
  | 0, s => s
  | n + 1, s => tick metric (rGens n) (rTargets n) (runTicks metric rGens rTargets n s)

/-- Embeds the per-tick update of the module-level `metricStates` table: only
the entry at `metric.id` is replaced. -/
def publishMetricStates (metric : MetricDefinition) (rGen rTarget : ℚ)
    (states : String → MetricState) : String → MetricState :=
  fun id =>
    if id = metric.id then tick metric rGen rTarget (states metric.id)
    else states id

/-- The `vehicleSpeed` entry of the `metrics` table. -/
def vehicleSpeed : MetricDefinition :=
  { id := "vehicleSpeed", label := "Speed", unit := "km/h", min := 0,
    max := 240, smoothing := 0.2, frequency := 20, precision := none,
    generator := none }

/-- The `coolantTemp` entry of the `metrics` table. -/
def coolantTemp : MetricDefinition :=
  { id := "coolantTemp", label := "Coolant", unit := "°C", min := 70,
    max := 110, smoothing := 0.05, frequency := 5, precision := some 1,
    generator := none }

/-- The `fuelLevel` entry of the `metrics` table, with its override generator
`(value) => Math.max(0, value - Math.random() * 0.1)`. -/
def fuelLevel : MetricDefinition :=
  { id := "fuelLevel", label := "Fuel", unit := "%", min := 5, max := 100,
    smoothing := 0.01, frequency := 1, precision := some 1,
    generator := some (fun r value => Max.max 0 (value - r * 0.1)) }

/-- Embeds the `metrics` definition table of `simulator.ts`. -/
def metrics : List MetricDefinition :=
  [ vehicleSpeed,
    { id := "engineRpm", label := "RPM", unit := "rpm", min := 700,
      max := 7200, smoothing := 0.18, frequency := 30, precision := none,
      generator := none },
    coolantTemp,
    { id := "oilTemp", label := "Oil Temp", unit := "°C", min := 60,
      max := 130, smoothing := 0.04, frequency := 5, precision := some 1,
      generator := none },
    fuelLevel,
    { id := "batteryVoltage", label := "Battery", unit := "V", min := 12.2,
      max := 14.4, smoothing := 0.03, frequency := 2, precision := some 2,
      generator := none },
    { id := "instantConsumption", label := "Cons.", unit := "L/100km",
      min := 3, max := 25, smoothing := 0.2, frequency := 15,
      precision := some 1, generator := none },
    { id := "avgConsumption", label := "Avg Cons.", unit := "L/100km",
      min := 4, max := 12, smoothing := 0.01, frequency := 1,
      precision := some 1, generator := none },
    { id := "boostPressure", label := "Boost", unit := "kPa", min := 95,
      max := 190, smoothing := 0.25, frequency := 25, precision := some 1,
      generator := none },
    { id := "oilPressure", label := "Oil Press", unit := "kPa", min := 200,
      max := 600, smoothing := 0.1, frequency := 10, precision := none,
      generator := none },
    { id := "intakeTemp", label := "Intake", unit := "°C", min := 20,
      max := 75, smoothing := 0.06, frequency := 5, precision := some 1,
      generator := none },
    { id := "ambientTemp", label := "Ambient", unit := "°C", min := -10,
      max := 45, smoothing := 0.02, frequency := 0.5, precision := some 1,
      generator := none },
    { id := "steeringAngle", label := "Steer", unit := "°", min := -540,
      max := 540, smoothing := 0.35, frequency := 30, precision := some 0,
      generator := none },
    { id := "brakePressure", label := "Brake", unit := "%", min := 0,
      max := 100, smoothing := 0.4, frequency := 30, precision := none,
      generator := none },
    { id := "throttle", label := "Throttle", unit := "%", min := 0,
      max := 100, smoothing := 0.3, frequency := 30, precision := none,
      generator := none },
    { id := "gear", label := "Gear", unit := "", min := 1, max := 8,
      smoothing := 1, frequency := 2, precision := none,
      generator := some (fun r _ => (Int.floor (r * 8) : ℚ) + 1) },
    { id := "odometer", label := "Odo", unit := "km", min := 0,
      max := 200000, smoothing := 0.00001, frequency := 1, precision := none,
      generator := some (fun r value => value + r * 0.05) },
    { id := "trip", label := "Trip", unit := "km", min := 0, max := 500,
      smoothing := 0.0002, frequency := 2, precision := none,
      generator := some (fun r value => value + r * 0.02) },
    { id := "tirePressureFrontLeft", label := "FL Tire", unit := "psi",
      min := 30, max := 38, smoothing := 0.05, frequency := 2,
      precision := some 1, generator := none },
    { id := "tirePressureFrontRight", label := "FR Tire", unit := "psi",
      min := 30, max := 38, smoothing := 0.05, frequency := 2,
      precision := some 1, generator := none } ]

theorem clamp_mem (v min max : ℚ) (h : min ≤ max) :
    min ≤ clamp v min max ∧ clamp v min max ≤ max := by
  unfold clamp
  constructor
  · exact le_min (le_max_right v min) h
  · exact min_le_right _ _

theorem randomInRange_mem (r min max : ℚ) (h : min ≤ max) (h0 : 0 ≤ r)
    (h1 : r < 1) : min ≤ randomInRange r min max ∧ randomInRange r min max ≤ max := by
  unfold randomInRange
  constructor
  · nlinarith
  · nlinarith

theorem tick_value_eq (metric : MetricDefinition) (rGen rTarget : ℚ)
    (s : MetricState) :
    (tick metric rGen rTarget s).value =
      clamp
        (match metric.generator with
         | some g => g rGen s.value
         | none => defaultGenerator metric s.target rGen s.value)
        metric.min metric.max := rfl

theorem encodeRemainingLength_zero : encodeRemainingLength 0 = [0x00] := by
  rw [encodeRemainingLength]
  norm_num

theorem encodeRemainingLength_127 : encodeRemainingLength 127 = [0x7f] := by
  rw [encodeRemainingLength]
  norm_num

theorem encodeRemainingLength_128 : encodeRemainingLength 128 = [0x80, 0x01] := by
  rw [encodeRemainingLength]
  norm_num
  rw [encodeRemainingLength]
  norm_num

theorem encodeRemainingLength_16384 :
    encodeRemainingLength 16384 = [0x80, 0x80, 0x01] := by
  rw [encodeRemainingLength]
  norm_num
  rw [encodeRemainingLength]
  norm_num
  rw [encodeRemainingLength]
  norm_num

/-- C2: for every length up to the protocol's 4-byte maximum, the
variable-length encoder emits at least one byte; byte `i` carries
`L / 128 ^ i % 128` in its low seven bits with the top bit set exactly when
more bytes follow; decoding the encoding yields `L`; and `0`, `127`, `128`,
`16384` encode to `[0x00]`, `[0x7F]`, `[0x80, 0x01]`, `[0x80, 0x80, 0x01]`. -/
theorem encodeRemainingLength_correct :
    (∀ L : Nat, L ≤ 268435455 →
      1 ≤ (encodeRemainingLength L).length ∧
      (∀ i, i < (encodeRemainingLength L).length →
        (encodeRemainingLength L).getD i 0 % 128 = L / 128 ^ i % 128 ∧
        (128 ≤ (encodeRemainingLength L).getD i 0 ↔
          i + 1 < (encodeRemainingLength L).length)) ∧
      decodeRemainingLength (encodeRemainingLength L) = some L) ∧
    encodeRemainingLength 0 = [0x00] ∧
    encodeRemainingLength 127 = [0x7f] ∧
    encodeRemainingLength 128 = [0x80, 0x01] ∧
    encodeRemainingLength 16384 = [0x80, 0x80, 0x01] := by
  refine ⟨fun L _ => ⟨?_, encodeRemainingLength_byte L,
      decode_encodeRemainingLength L⟩,
    encodeRemainingLength_zero, encodeRemainingLength_127,
    encodeRemainingLength_128, encodeRemainingLength_16384⟩
  exact List.length_pos.mpr (encodeRemainingLength_ne_nil L)

/-- Witness for `encodeRemainingLength_correct` at `L = 128`, `i = 0`. -/
theorem encodeRemainingLength_correct_witness :
    (128 : Nat) ≤ 268435455 ∧
    1 ≤ (encodeRemainingLength 128).length ∧
    (encodeRemainingLength 128).getD 0 0 % 128 = 128 / 128 ^ 0 % 128 ∧
    (128 ≤ (encodeRemainingLength 128).getD 0 0 ↔
      0 + 1 < (encodeRemainingLength 128).length) ∧
    decodeRemainingLength (encodeRemainingLength 128) = some 128 := by
  obtain ⟨h1, h2, h3⟩ := encodeRemainingLength_correct.1 128 (by norm_num)
  have hi : 0 < (encodeRemainingLength 128).length := h1
  obtain ⟨hb1, hb2⟩ := h2 0 hi
  exact ⟨by norm_num, h1, hb1, hb2, h3⟩

/-- C1: publishing with `{retain: true, qos: 0}` yields a frame whose first
byte is `0x31`, whose remaining-length bytes decode to topic-field length plus
payload length, and whose body is exactly the topic field followed by the raw
payload; for every qos 0, 1 or 2 passed in, the bytes after the fixed header
and the remaining-length bytes are still exactly the topic field followed by
the raw payload, with no packet-identifier field. -/
theorem publish_frame_layout (topic payload : List Nat) :
    buildPublishPacket topic payload true 0 =
      0x31 :: (encodeRemainingLength ((encodeUtf8String topic).length + payload.length) ++
        (encodeUtf8String topic ++ payload)) ∧
    decodeRemainingLength
        (encodeRemainingLength ((encodeUtf8String topic).length + payload.length)) =
      some ((encodeUtf8String topic).length + payload.length) ∧
    (∀ qos : Nat, qos ≤ 2 →
      (buildPublishPacket topic payload true qos).drop
          (1 + (encodeRemainingLength
            ((encodeUtf8String topic).length + payload.length)).length) =
        encodeUtf8String topic ++ payload) := by
  refine ⟨?_, decode_encodeRemainingLength _, fun qos _ => ?_⟩
  · show (((0x30 ||| 0x01 ||| 0 : Nat) ::
        encodeRemainingLength ((encodeUtf8String topic).length + payload.length)) ++
          encodeUtf8String topic ++ payload) = _
    have h : (0x30 ||| 0x01 ||| 0 : Nat) = 0x31 := by decide
    rw [h]
    simp [List.append_assoc]
  · show (((0x30 ||| (if (true : Bool) then 0x01 else 0x00) |||
        (if qos ≠ 0 then qos <<< 1 else 0) : Nat) ::
        encodeRemainingLength ((encodeUtf8String topic).length + payload.length)) ++
          encodeUtf8String topic ++ payload).drop
        (1 + (encodeRemainingLength
          ((encodeUtf8String topic).length + payload.length)).length) = _
    rw [Nat.add_comm 1]
    simp only [List.cons_append, List.append_assoc, List.drop_succ_cons]
    rw [List.drop_left]

/-- Witness for `publish_frame_layout` with topic bytes `[116]`, payload
`[1, 2]` and `qos = 2`. -/
theorem publish_frame_layout_witness :
    (2 : Nat) ≤ 2 ∧
    (buildPublishPacket [116] [1, 2] true 2).drop
        (1 + (encodeRemainingLength
          ((encodeUtf8String [116]).length + ([1, 2] : List Nat).length)).length) =
      encodeUtf8String [116] ++ [1, 2] :=
  ⟨by norm_num, (publish_frame_layout [116] [1, 2]).2.2 2 (by norm_num)⟩

/-- C5 counterexample: on a 65,536-byte UTF-8 sequence the string-field
encoder does not fail; it produces a field whose two length bytes are
`[0x00, 0x00]`, which do not decode to the actual byte count. -/
theorem encodeUtf8String_overflow_counterexample :
    encodeUtf8String (List.replicate 65536 97) =
      0 :: 0 :: List.replicate 65536 97 ∧
    256 * (encodeUtf8String (List.replicate 65536 97)).getD 0 0 +
        (encodeUtf8String (List.replicate 65536 97)).getD 1 0 ≠
      (List.replicate 65536 97 : List Nat).length := by
  have hlen : (List.replicate 65536 97 : List Nat).length = 65536 :=
    List.length_replicate _ _
  have hmain : encodeUtf8String (List.replicate 65536 97) =
      0 :: 0 :: List.replicate 65536 97 := by
    unfold encodeUtf8String
    rw [hlen, shiftRight8_eq_div, and_ff_eq_mod, and_ff_eq_mod]
  refine ⟨hmain, ?_⟩
  rw [hmain, hlen]
  simp only [List.getD_cons_zero, List.getD_cons_succ]
  norm_num

/-- C5 amended: the string-field encoder never rejects; it always emits the
low sixteen bits of the byte length as two big-endian bytes followed by the
bytes, so the length prefix is exact for sequences of at most 65,535 bytes
and wraps modulo 65,536 beyond that. -/
theorem encodeUtf8String_layout (stringBuf : List Nat) :
    encodeUtf8String stringBuf =
      stringBuf.length / 256 % 256 :: stringBuf.length % 256 :: stringBuf ∧
    (stringBuf.length ≤ 65535 →
      encodeUtf8StringSpec stringBuf = some (encodeUtf8String stringBuf) ∧
      256 * (encodeUtf8String stringBuf).getD 0 0 +
          (encodeUtf8String stringBuf).getD 1 0 = stringBuf.length ∧
      (encodeUtf8String stringBuf).drop 2 = stringBuf) := by
  have hmain : encodeUtf8String stringBuf =
      stringBuf.length / 256 % 256 :: stringBuf.length % 256 :: stringBuf := by
    unfold encodeUtf8String
    rw [shiftRight8_eq_div, and_ff_eq_mod, and_ff_eq_mod]
  refine ⟨hmain, fun hle => ⟨?_, ?_, ?_⟩⟩
  · unfold encodeUtf8StringSpec
    rw [if_pos hle, hmain]
    have : stringBuf.length / 256 % 256 = stringBuf.length / 256 := by omega
    rw [this]
  · rw [hmain]
    simp only [List.getD_cons_zero, List.getD_cons_succ]
    omega
  · rw [hmain]
    rfl

/-- Witness for `encodeUtf8String_layout` on the two-byte sequence
`[104, 105]`. -/
theorem encodeUtf8String_layout_witness :
    encodeUtf8StringSpec [104, 105] = some (encodeUtf8String [104, 105]) ∧
    256 * (encodeUtf8String [104, 105]).getD 0 0 +
        (encodeUtf8String [104, 105]).getD 1 0 =
      ([104, 105] : List Nat).length ∧
    (encodeUtf8String [104, 105]).drop 2 = [104, 105] :=
  (encodeUtf8String_layout [104, 105]).2 (by norm_num)

/-- C3: a first inbound chunk of at least 4 bytes seen while not yet ready
resolves the pending connect and makes the machine ready exactly when
`byte0 = 0x20`, `byte1 ≥ 2` and `byte3 = 0`; any other such chunk rejects the
pending connect. -/
theorem connack_first_chunk (s : PublisherState) (chunk : List Nat)
    (hready : s.isReady = false) (hlen : 4 ≤ chunk.length) :
    (chunk.getD 0 0 = 0x20 ∧ 0x02 ≤ chunk.getD 1 0 ∧ chunk.getD 3 0 = 0x00 →
      onData s chunk = ({ s with isReady := true }, HandshakeSignal.resolved)) ∧
    (¬ (chunk.getD 0 0 = 0x20 ∧ 0x02 ≤ chunk.getD 1 0 ∧ chunk.getD 3 0 = 0x00) →
      onData s chunk = (s, HandshakeSignal.rejected)) := by
  constructor <;> intro h
  · unfold onData
    rw [if_pos ⟨hready, hlen⟩, if_pos h]
  · unfold onData
    rw [if_pos ⟨hready, hlen⟩, if_neg h]

/-- Witness for `connack_first_chunk` on the well-formed acknowledgement
`[0x20, 0x02, 0x00, 0x00]`. -/
theorem connack_first_chunk_witness :
    onData ⟨true, false, some 0, 1⟩ [0x20, 0x02, 0x00, 0x00] =
      ({ hasSocket := true, isReady := true, connectPromise := some 0,
         nextPromiseId := 1 }, HandshakeSignal.resolved) :=
  (connack_first_chunk ⟨true, false, some 0, 1⟩ [0x20, 0x02, 0x00, 0x00]
    rfl (by norm_num)).1 (by decide)

/-- C4: publishing while there is no socket or the handshake has not
completed throws `"MQTT publisher not connected"` and performs no socket
write, for every topic, payload and options. -/
theorem publish_not_ready (s : PublisherState) (topic payload : List Nat)
    (retain : Bool) (qos : Nat)
    (h : s.hasSocket = false ∨ s.isReady = false) :
    publish s topic payload retain qos =
      Except.error "MQTT publisher not connected" ∧
    writesOf (publish s topic payload retain qos) = [] := by
  unfold publish
  rw [if_pos h]
  exact ⟨rfl, rfl⟩

/-- Witness for `publish_not_ready` on the freshly constructed state. -/
theorem publish_not_ready_witness :
    publish ⟨false, false, none, 0⟩ [116] [1] true 0 =
      Except.error "MQTT publisher not connected" ∧
    writesOf (publish ⟨false, false, none, 0⟩ [116] [1] true 0) = [] :=
  publish_not_ready ⟨false, false, none, 0⟩ [116] [1] true 0 (Or.inl rfl)

/-- C6 counterexample: after `connect()` from the fresh state, a rejecting
acknowledgement (`byte3 = 1`) rejects the pending connect but does not clear
the pending handle, so a later `connect()` returns the same stale attempt
(handle 0) and opens no fresh socket. -/
theorem handshake_reject_keeps_handle_counterexample :
    connect ⟨false, false, none, 0⟩ = (⟨true, false, some 0, 1⟩, 0, true) ∧
    (onData ⟨true, false, some 0, 1⟩ [0x20, 0x02, 0x00, 0x01]).2 =
      HandshakeSignal.rejected ∧
    (onData ⟨true, false, some 0, 1⟩ [0x20, 0x02, 0x00, 0x01]).1.connectPromise =
      some 0 ∧
    connect (onData ⟨true, false, some 0, 1⟩ [0x20, 0x02, 0x00, 0x01]).1 =
      ((onData ⟨true, false, some 0, 1⟩ [0x20, 0x02, 0x00, 0x01]).1, 0, false) := by
  decide

/-- C6 amended: a handshake failure rejects the pending connect but by itself
changes no state field; readiness is reset to false and the pending handle
cleared only by the socket close event, after which a later `connect()`
starts a fresh attempt. -/
theorem close_resets_reject_preserves :
    (∀ s : PublisherState,
      (onClose s).isReady = false ∧ (onClose s).connectPromise = none) ∧
    (∀ (s : PublisherState) (chunk : List Nat),
      ((onData s chunk).1).connectPromise = s.connectPromise) := by
  refine ⟨fun s => ⟨rfl, rfl⟩, fun s chunk => ?_⟩
  unfold onData
  split
  · split <;> rfl
  · rfl

/-- C7: a `connect()` call made while `this.connectPromise` is already set
(an attempt in flight or completed) returns that same promise, changes no
state, and opens no second socket. -/
theorem connect_idempotent (s : PublisherState) (p : Nat)
    (h : s.connectPromise = some p) :
    connect s = (s, p, false) := by
  unfold connect
  rw [h]

/-- Witness for `connect_idempotent` on a ready publisher holding promise 5. -/
theorem connect_idempotent_witness :
    connect ⟨true, true, some 5, 6⟩ = (⟨true, true, some 5, 6⟩, 5, false) :=
  connect_idempotent ⟨true, true, some 5, 6⟩ 5 rfl

theorem tick_target_eq (metric : MetricDefinition) (rGen rTarget : ℚ)
    (s : MetricState) :
    (tick metric rGen rTarget s).target =
      if |(tick metric rGen rTarget s).value - s.target| < metric.smoothing * 5 then
        randomInRange rTarget metric.min metric.max
      else s.target := rfl

/-- C8: with `min ≤ max` and the resampling draws in `[0, 1)`, every state
reached from the initial state by at least one tick has
`min ≤ value ≤ max`, and whenever `|value - target| < smoothing * 5` holds
after clamping, the freshly resampled target is `randomInRange` of the draw
and lies in `[min, max]`. -/
theorem metric_tick_invariant (metric : MetricDefinition)
    (rGens rTargets : Nat → ℚ) (u : ℚ)
    (hminmax : metric.min ≤ metric.max) :
    (∀ n, 1 ≤ n →
      metric.min ≤ (runTicks metric rGens rTargets n (initialState metric u)).value ∧
      (runTicks metric rGens rTargets n (initialState metric u)).value ≤ metric.max) ∧
    (∀ (s : MetricState) (rGen rTarget : ℚ), 0 ≤ rTarget → rTarget < 1 →
      |(tick metric rGen rTarget s).value - s.target| < metric.smoothing * 5 →
      (tick metric rGen rTarget s).target =
        randomInRange rTarget metric.min metric.max ∧
      metric.min ≤ (tick metric rGen rTarget s).target ∧
      (tick metric rGen rTarget s).target ≤ metric.max) := by
  constructor
  · intro n hn
    obtain ⟨m, rfl⟩ : ∃ m, n = m + 1 := ⟨n - 1, by omega⟩
    rw [runTicks, tick_value_eq]
    exact clamp_mem _ _ _ hminmax
  · intro s rGen rTarget h0 h1 hcond
    have ht : (tick metric rGen rTarget s).target =
        randomInRange rTarget metric.min metric.max := by
      rw [tick_target_eq, if_pos hcond]
    obtain ⟨hlo, hhi⟩ := randomInRange_mem rTarget _ _ hminmax h0 h1
    exact ⟨ht, by rw [ht]; exact hlo, by rw [ht]; exact hhi⟩

/-- Witness for `metric_tick_invariant` on `vehicleSpeed` with all random
draws `1/2`, after one tick, and one resampling tick from the state
`⟨0, 0⟩`. -/
theorem metric_tick_invariant_witness :
    vehicleSpeed.min ≤
      (runTicks vehicleSpeed (fun _ => 1/2) (fun _ => 1/2) 1
        (initialState vehicleSpeed (1/2))).value ∧
    (runTicks vehicleSpeed (fun _ => 1/2) (fun _ => 1/2) 1
        (initialState vehicleSpeed (1/2))).value ≤ vehicleSpeed.max ∧
    (tick vehicleSpeed (1/2) (1/2) ⟨0, 0⟩).target =
      randomInRange (1/2) vehicleSpeed.min vehicleSpeed.max ∧
    vehicleSpeed.min ≤ (tick vehicleSpeed (1/2) (1/2) ⟨0, 0⟩).target ∧
    (tick vehicleSpeed (1/2) (1/2) ⟨0, 0⟩).target ≤ vehicleSpeed.max := by
  obtain ⟨h1, h2⟩ := metric_tick_invariant vehicleSpeed (fun _ => 1/2)
    (fun _ => 1/2) (1/2) (by norm_num [vehicleSpeed])
  obtain ⟨ha, hb⟩ := h1 1 (by norm_num)
  obtain ⟨hc, hd, he⟩ := h2 ⟨0, 0⟩ (1/2) (1/2) (by norm_num) (by norm_num)
    (by norm_num [tick, clamp, defaultGenerator, vehicleSpeed])
  exact ⟨ha, hb, hc, hd, he⟩

/-- C9 counterexample: at the `Math.random()` draw `r = 0`, on the
`coolantTemp` metric with current value 90 and target 80, the computed next
value is not expressible with any noise factor `u` strictly inside
`(-0.5, 0.5)`: the draw `r = 0` forces `u = -0.5`. -/
theorem defaultGenerator_open_interval_counterexample :
    ¬ ∃ u : ℚ, -0.5 < u ∧ u < 0.5 ∧
      defaultGenerator coolantTemp 80 0 90 =
        90 + (80 - 90) * coolantTemp.smoothing +
          u * coolantTemp.smoothing * (coolantTemp.max - coolantTemp.min) * 0.01 := by
  rintro ⟨u, hlo, _, heq⟩
  unfold defaultGenerator at heq
  norm_num [coolantTemp] at heq
  linarith

/-- C9 amended: for every metric without an override generator, the raw next
value computed on a tick equals
`current + (target - current) * smoothing + u * smoothing * (max - min) * 0.01`
where `u = r - 0.5` for the tick's uniform draw `r ∈ [0, 1)`, so `u` lies in
the half-open interval `[-0.5, 0.5)` (it can equal `-0.5` when `r = 0`). -/
theorem defaultGenerator_noise_formula (metric : MetricDefinition)
    (target r current : ℚ) (h0 : 0 ≤ r) (h1 : r < 1) :
    -0.5 ≤ r - 0.5 ∧ r - 0.5 < 0.5 ∧
    defaultGenerator metric target r current =
      current + (target - current) * metric.smoothing +
        (r - 0.5) * metric.smoothing * (metric.max - metric.min) * 0.01 := by
  refine ⟨by linarith, by linarith, ?_⟩
  unfold defaultGenerator
  ring

/-- Witness for `defaultGenerator_noise_formula` on `coolantTemp` at
`target = 80`, `r = 1/2`, `current = 90`. -/
theorem defaultGenerator_noise_formula_witness :
    (0 : ℚ) ≤ 1/2 ∧ (1/2 : ℚ) < 1 ∧
    (-0.5 : ℚ) ≤ 1/2 - 0.5 ∧ (1/2 : ℚ) - 0.5 < 0.5 ∧
    defaultGenerator coolantTemp 80 (1/2) 90 =
      90 + (80 - 90) * coolantTemp.smoothing +
        (1/2 - 0.5) * coolantTemp.smoothing *
          (coolantTemp.max - coolantTemp.min) * 0.01 := by
  obtain ⟨h1, h2, h3⟩ := defaultGenerator_noise_formula coolantTemp 80 (1/2) 90
    (by norm_num) (by norm_num)
  exact ⟨by norm_num, by norm_num, h1, h2, h3⟩

/-- C10: a tick for one metric rewrites only its own entry of the
`metricStates` table; every other metric's state is unchanged. -/
theorem tick_frame_effect (m n : MetricDefinition) (rGen rTarget : ℚ)
    (states : String → MetricState) (h : n.id ≠ m.id) :
    publishMetricStates m rGen rTarget states n.id = states n.id := by
  unfold publishMetricStates
  rw [if_neg h]

/-- Witness for `tick_frame_effect`: ticking `vehicleSpeed` leaves the
`coolantTemp` entry unchanged. -/
theorem tick_frame_effect_witness :
    publishMetricStates vehicleSpeed (1/2) (1/2) (fun _ => ⟨0, 0⟩)
        coolantTemp.id =
      (fun _ => (⟨0, 0⟩ : MetricState)) coolantTemp.id :=
  tick_frame_effect vehicleSpeed coolantTemp (1/2) (1/2) (fun _ => ⟨0, 0⟩)
    (by decide)

end Hmi
